import Mathlib

/-!
Shallow embedding of the job-tracking orchestrator of the comfy-catapult
repository (src/comfy_catapult/catapult.py, catapult_base.py, errors.py,
comfy_schema.py), together with proofs about the frozen specification claims.

Engine responses (tickets, queue snapshots, history maps, websocket message
payloads) are passed to the embedded handlers as explicit parameters; python
dicts are insertion-ordered association lists; `datetime` timestamps are
abstracted as naturals; asyncio futures are a four-state value.
-/

namespace ComfyCatapult

/-- Caller-chosen job identifier (`JobID` in catapult_base.py). -/
abbrev JobID := String

/-- Engine-assigned prompt identifier (`PromptID` in comfy_schema.py). -/
abbrev PromptID := String

/-- Workflow node identifier (`APINodeID` in comfy_schema.py). -/
abbrev NodeID := String

/-- Timestamps produced by `ComfyCatapult._Now`; only their identity matters. -/
abbrev Time := Nat

/-- Read of a python dict, `d.get(k)` / `k in d`, over an insertion-ordered
association list. -/
def alookup {α : Type} (k : String) : List (String × α) → Option α
  | [] => none
  | (k0, v) :: rest => if k = k0 then some v else alookup k rest

/-- Write of a python dict, `d[k] = v`: updates the entry in place when the key
exists, otherwise appends, preserving insertion order. -/
def dinsert {α : Type} (k : String) (v : α) : List (String × α) → List (String × α)
  | [] => [(k, v)]
  | (k0, v0) :: rest =>
    if k = k0 then (k0, v) :: rest else (k0, v0) :: dinsert k v rest

/-- The `_meta` block of a prepared-workflow node; only `title` is read
(catapult.py `_GetTitles`). -/
structure NodeMeta where
  title : Option String
deriving DecidableEq, Repr

/-- One node of a prepared API workflow; only the `_meta` key is consulted. -/
structure WFNode where
  meta : Option NodeMeta
deriving DecidableEq, Repr

/-- A prepared workflow: python dict from node id to node data. -/
abbrev Workflow := List (NodeID × WFNode)

/-- Return of the post-prompt endpoint, `APIWorkflowTicket` in comfy_schema.py.
The `error` field (a union of an error object and a string in the source) is
abstracted to its presence and text; `node_errors` values are opaque. -/
structure APIWorkflowTicket where
  node_errors : Option (List (NodeID × Unit))
  number : Option Int
  prompt_id : Option PromptID
  error : Option String
deriving DecidableEq, Repr

/-- One entry of `APIHistoryEntryStatus.messages` (`APIHistoryEntryStatusNote`);
its content is opaque to the orchestrator. -/
structure APIHistoryEntryStatusNote where
  name : String
deriving DecidableEq, Repr

/-- Status block of a history entry (`APIHistoryEntryStatus`). -/
structure APIHistoryEntryStatus where
  status_str : Option String
  completed : Option Bool
  messages : Option (List APIHistoryEntryStatusNote)
deriving DecidableEq, Repr

/-- The `prompt` field of a history entry (`APIQueueInfoEntry`); the code reads
`outputs_to_execute` and `extra_data` defensively through is-not-None checks. -/
structure HistoryPrompt where
  outputs_to_execute : Option (List NodeID)
  extra_data : Option Unit
deriving DecidableEq, Repr

/-- One history entry (`APIHistoryEntry`); output payloads are opaque, only the
keys of `outputs` are consulted. -/
structure APIHistoryEntry where
  outputs : Option (List (NodeID × Unit))
  prompt : Option HistoryPrompt
  status : Option APIHistoryEntryStatus
deriving DecidableEq, Repr

/-- Return of the history endpoint (`APIHistory.root`): python dict from prompt
id to history entry. -/
abbrev APIHistory := List (PromptID × APIHistoryEntry)

/-- Payload of an `execution_interrupted` / `execution_error` websocket message:
the keys read at catapult.py lines 770-772, kept whole as the raw payload. -/
structure WSErrData where
  prompt_id : Option PromptID
  node_id : Option String
  node_type : Option String
deriving DecidableEq, Repr

/-- Exceptions raised by the orchestrator. `duplicateJobID` models the builtin
`KeyError` raised at catapult.py line 237 and `invalidJobID` the builtin
`ValueError` at line 239 (the spec's facade-error labels for them);
`jobVanished` models the bare `Exception` at line 373; `promptNotInHistory`
the `AssertionError` at line 381; `jobFailed` carries the status block (with
its notes); `invalidStateError` models asyncio's error for resolving a done
future; `cancelledError` models `asyncio.CancelledError`. -/
inductive CatErr where
  | duplicateJobID (job_id : JobID)
  | invalidJobID (job_id : JobID)
  | jobNotFound (job_id : JobID)
  | workflowSubmission (prepared_workflow : Workflow) (ticket : APIWorkflowTicket)
  | jobVanished (job_id : JobID) (prompt_id : Option PromptID)
  | promptIdNone
  | promptNotInHistory (prompt_id : Option PromptID)
  | jobFailed (st : APIHistoryEntryStatus)
  | nodesNotExecuted (nodes : List NodeID) (titles : List (Option String))
  | invalidStateError
  | cancelledError
deriving DecidableEq, Repr

/-- One `ExceptionInfo` recorded in `JobStatus.errors`: either the structured
error built inline in `_LoopWS` for a stream error (node id, node type and the
raw payload) or the record built in `_JobContext.__aexit__` from an exception. -/
inductive ErrEntry where
  | fromWS (node_id : Option String) (node_type : Option String) (raw : WSErrData)
  | fromExc (e : CatErr)
deriving DecidableEq, Repr

/-- State of an `asyncio.Future[dict]`; the dict a future resolves with is the
history entry whose `model_dump()` the code passes to `set_result`. -/
inductive FutureState where
  | pending
  | resolved (r : APIHistoryEntry)
  | rejected (e : CatErr)
  | cancelled
deriving DecidableEq, Repr

/-- Python `future.done()`. -/
def FutureState.doneB : FutureState → Bool
  | .pending => false
  | _ => true

/-- The value a resolved future carries, if any. -/
def FutureState.resolvedVal : FutureState → Option APIHistoryEntry
  | .resolved r => some r
  | _ => none

/-- Python `future.cancel()`: only a pending future becomes cancelled. -/
def futCancel : FutureState → FutureState
  | .pending => .cancelled
  | f => f

/-- The `JobStatus` record of catapult_base.py. -/
structure JobStatus where
  scheduled : Option Time
  comfy_scheduled : Option Time
  pending : Option Time
  running : Option Time
  success : Option Time
  errored : Option Time
  cancelled : Option Time
  errors : List ErrEntry
  system_stats_check : Option Time
  queue_check : Option Time
  ticket : Option APIWorkflowTicket
  job_history : Option APIHistoryEntry
deriving DecidableEq, Repr

/-- `JobStatus.IsDone` from catapult_base.py. -/
def JobStatus.IsDone (s : JobStatus) : Bool :=
  s.success.isSome || s.errored.isSome || s.cancelled.isSome

/-- `_Job.RemoteStatus` from catapult.py. -/
inductive RemoteStatus where
  | NONE
  | PENDING_OR_RUNNING
deriving DecidableEq, Repr

/-- The `_Job` record of catapult.py (`job_debug_path` is a collaborator
concern and omitted). -/
structure Job where
  job_id : JobID
  prepared_workflow : Workflow
  important_nodes : List NodeID
  status : JobStatus
  errors : List CatErr
  future : FutureState
  remote_job_status : RemoteStatus
deriving DecidableEq, Repr

/-- Extraction of the engine prompt id from a job, as done repeatedly in
catapult.py (`ticket = job.status.ticket; prompt_id = ticket.prompt_id`). -/
def promptOf (j : Job) : Option PromptID :=
  match j.status.ticket with
  | none => none
  | some t => t.prompt_id

/-- The title lookup of `_GetTitles` for one node:
`prepared_workflow.get(node_id, \x7b\x7d).get(u, \x7b\x7d).get(v, None)`. -/
def getTitle (wf : Workflow) (n : NodeID) : Option String :=
  match alookup n wf with
  | none => none
  | some node =>
    match node.meta with
    | none => none
    | some m => m.title

/-- `_GetTitles` from `_ReceivedJobHistory`. -/
def getTitles (wf : Workflow) (ns : List NodeID) : List (Option String) :=
  ns.map (getTitle wf)

/-- Body of `_JobContext.__aexit__` for a job present in the table, applied to
an exception `e`: reject the future if it is not yet done, then, if the status
is not terminal, append the exception to both error logs and set `errored`. -/
def jobContextExit (now : Time) (e : CatErr) (j : Job) : Job :=
  let j1 := if j.future.doneB = false then { j with future := FutureState.rejected e } else j
  if j1.status.IsDone = false then
    { j1 with
      errors := j1.errors ++ [e],
      status := { j1.status with
        errored := some now,
        errors := j1.status.errors ++ [ErrEntry.fromExc e] } }
  else j1

/-- Per-job body of the `execution_interrupted` / `execution_error` branch of
`_LoopWS` (catapult.py lines 777-791): when the job is not already terminal,
set `errored` and append the structured error; the future is not touched. -/
def wsExecErrorJob (now : Time) (d : WSErrData) (j : Job) : Job :=
  if j.status.IsDone = false then
    { j with status := { j.status with
        errored := some now,
        errors := j.status.errors ++ [ErrEntry.fromWS d.node_id d.node_type d] } }
  else j

/-- Per-job mark-running shared by the `executing` / `execution_start` /
`executed` branches of `_LoopWS`: set `running` only if unset. -/
def wsRunningJob (now : Time) (j : Job) : Job :=
  if j.status.running = none then
    { j with status := { j.status with running := some now } }
  else j

/-- The `_JobQueueStatus` literal of catapult.py. -/
inductive QueueStatus where
  | pending
  | running
  | not_in_queue
deriving DecidableEq, Repr

/-- Per-job body of the queue probe `_PollQueue` (catapult.py lines 566-583):
first-seen `pending` / `running` timestamps plus an unconditional
`queue_check` stamp. -/
def pollQueueJob (now : Time) (qs : QueueStatus) (j : Job) : Job :=
  let j1 := if qs = QueueStatus.pending ∧ j.status.pending = none then
    { j with status := { j.status with pending := some now } } else j
  let j2 := if qs = QueueStatus.running ∧ j1.status.running = none then
    { j1 with status := { j1.status with running := some now } } else j1
  { j2 with status := { j2.status with queue_check := some now } }

/-- Per-job body of `_PollSystemStats`. -/
def pollSystemStatsJob (now : Time) (j : Job) : Job :=
  if j.status.IsDone = true then j
  else if j.status.system_stats_check = none then
    { j with status := { j.status with system_stats_check := some now } }
  else j

/-- Per-job body of `_PollFutures`: a done future with a non-terminal status is
synchronized; `future.result()` either yields the result (then `success` is
stamped) or re-raises, and the raised exception is handled by the surrounding
`_JobContext`. -/
def pollFuturesJob (now : Time) (j : Job) : Job :=
  if j.future.doneB = true ∧ j.status.IsDone = false then
    match j.future with
    | FutureState.resolved _ => { j with status := { j.status with success := some now } }
    | FutureState.rejected e => jobContextExit now e j
    | FutureState.cancelled => jobContextExit now CatErr.cancelledError j
    | FutureState.pending => j
  else j

/-- Per-job body of `CancelJob` (catapult.py lines 327-352): best-effort remote
interrupt and dequeue (with the remote flag reset) when believed pending or
running remotely, then the local cancel, guarded by `IsDone`. -/
def cancelJobLocal (now : Time) (j : Job) : Job :=
  let j1 := if j.remote_job_status = RemoteStatus.PENDING_OR_RUNNING ∧ (promptOf j).isSome = true then
    { j with remote_job_status := RemoteStatus.NONE } else j
  if j1.status.IsDone = false then
    { j1 with status := { j1.status with cancelled := some now },
              future := futCancel j1.future }
  else j1

/-- Stage-one test of `_ReceivedJobHistory`: the history entry has a status
block whose `completed` field is the literal `False`. -/
def historyFailed (jh : APIHistoryEntry) : Bool :=
  match jh.status with
  | some st => decide (st.completed = some false)
  | none => false

/-- Node ids that produced output data: keys of `job_history.outputs`. -/
def outputsWithData (jh : APIHistoryEntry) : List NodeID :=
  match jh.outputs with
  | some l => l.map Prod.fst
  | none => []

/-- Node ids the engine said it would execute: `prompt.outputs_to_execute`,
read through the source's is-not-None checks, defaulting to the empty list. -/
def outputsToExecute (jh : APIHistoryEntry) : List NodeID :=
  match jh.prompt with
  | some p =>
    match p.outputs_to_execute with
    | some l => l
    | none => []
  | none => []

/-- The `bad_dataless_outputs` comprehension of `_ReceivedJobHistory`. -/
def badDatalessOutputs (jh : APIHistoryEntry) : List NodeID :=
  (outputsToExecute jh).filter (fun n => !((outputsWithData jh).contains n))

/-- The `dataless_important_outputs` comprehension of `_ReceivedJobHistory`. -/
def datalessImportant (important : List NodeID) (jh : APIHistoryEntry) : List NodeID :=
  (badDatalessOutputs jh).filter (fun n => important.contains n)

/-- Final part of `_ReceivedJobHistory` (catapult.py lines 426-462) once the
status block passed: raise `NodesNotExecuted` when an important output lacks
data, otherwise resolve the future with the entry dump and stamp `success`
(`set_result` precedes the `success` stamp and raises on a done future). -/
def receivedJobHistoryOutputs (now : Time) (jh : APIHistoryEntry) (j : Job) :
    Job × Option CatErr :=
  let dataless := datalessImportant j.important_nodes jh
  if dataless = [] then
    match j.future with
    | FutureState.pending =>
      ({ j with future := FutureState.resolved jh,
                status := { j.status with success := some now } }, none)
    | _ => (j, some CatErr.invalidStateError)
  else
    (j, some (CatErr.nodesNotExecuted dataless (getTitles j.prepared_workflow dataless)))

/-- `_ReceivedJobHistory` (catapult.py lines 354-462) as a state transformer
returning the mutated job together with the exception it raises, if any;
mutations made before a raise (the stored `job_history`) persist. -/
def receivedJobHistory (now : Time) (history : APIHistory) (qs : QueueStatus)
    (j : Job) : Job × Option CatErr :=
  let prompt_id := promptOf j
  if history.isEmpty then
    if qs = QueueStatus.not_in_queue then
      (j, some (CatErr.jobVanished j.job_id prompt_id))
    else (j, none)
  else
    match prompt_id with
    | none => (j, some (CatErr.promptNotInHistory none))
    | some pid =>
      match alookup pid history with
      | none => (j, some (CatErr.promptNotInHistory (some pid)))
      | some jh =>
        let j1 := { j with status := { j.status with job_history := some jh } }
        match jh.status with
        | some st =>
          if st.completed = some false then (j1, some (CatErr.jobFailed st))
          else receivedJobHistoryOutputs now jh j1
        | none => receivedJobHistoryOutputs now jh j1

/-- `_PollHistoryUpdateJobHistory` (catapult.py lines 603-641) for one job,
with `history` the engine's response for the job's prompt id: skip when the
history was already recorded, treat a missing prompt id as an internal error,
and route exceptions from `_ReceivedJobHistory` through the `_JobContext`. -/
def pollHistoryUpdateJobHistory (now : Time) (history : APIHistory)
    (qs : QueueStatus) (j : Job) : Job :=
  if j.status.job_history.isSome = true then j
  else
    match promptOf j with
    | none => jobContextExit now CatErr.promptIdNone j
    | some _ =>
      match receivedJobHistory now history qs j with
      | (j1, none) => j1
      | (j1, some e) => jobContextExit now e j1

/-- One signal applied to a single job: the per-job effect of a websocket
message, of one poll-loop sub-step, of a cancel call, of an exception handled
by the job context, or of an external cancellation of the job's future. -/
inductive JEvent where
  | wsRunning (now : Time)
  | wsError (now : Time) (d : WSErrData)
  | pollQueue (now : Time) (qs : QueueStatus)
  | pollSystemStats (now : Time)
  | pollFutures (now : Time)
  | pollHistory (now : Time) (history : APIHistory)
  | cancel (now : Time)
  | ctxError (now : Time) (e : CatErr)
  | futureCancel
  | pollRemote (present : Bool)
deriving DecidableEq, Repr

/-- Application of one signal to a job. The history probe runs with queue
status `not_in_queue`, the only case in which `_PollHistory` invokes it;
`pollRemote` is `_PollHistoryUpdateRemoteJobStatus`. -/
def applyEvent : JEvent → Job → Job
  | .wsRunning now, j => wsRunningJob now j
  | .wsError now d, j => wsExecErrorJob now d j
  | .pollQueue now qs, j => pollQueueJob now qs j
  | .pollSystemStats now, j => pollSystemStatsJob now j
  | .pollFutures now, j => pollFuturesJob now j
  | .pollHistory now history, j => pollHistoryUpdateJobHistory now history QueueStatus.not_in_queue j
  | .cancel now, j => cancelJobLocal now j
  | .ctxError now e, j => jobContextExit now e j
  | .futureCancel, j => { j with future := futCancel j.future }
  | .pollRemote present, j =>
      { j with remote_job_status :=
          if present then RemoteStatus.PENDING_OR_RUNNING else RemoteStatus.NONE }

/-- Application of a sequence of signals. -/
def applyEvents (evs : List JEvent) (j : Job) : Job :=
  evs.foldl (fun a e => applyEvent e a) j

/-- A job state is reachable from another when some interleaving of poll-loop,
event-stream, cancel and context signals produces it. -/
def Reachable (j0 j : Job) : Prop := ∃ evs, applyEvents evs j0 = j

/-- Global orchestrator state: the job table, the prompt index, and the three
best-effort running-guess values of `ComfyCatapult.__init__`. -/
structure CatState where
  jobs : List (JobID × Job)
  prompt_id_index : List (PromptID × JobID)
  guess_job : Option JobID
  guess_node : Option String
  guess_progress : Option (Nat × Nat)
deriving DecidableEq, Repr

/-- The fresh `JobStatus` built in `_CatapultInternal` (catapult.py line 254). -/
def newJobStatus (now : Time) : JobStatus :=
  { scheduled := some now, comfy_scheduled := none, pending := none,
    running := none, success := none, errored := none, cancelled := none,
    errors := [], system_stats_check := none, queue_check := none,
    ticket := none, job_history := none }

/-- Submission-level error test of `_CatapultInternal` (catapult.py lines
282-288): non-empty `node_errors`, a present `error` field, or a missing
prompt id. -/
def hasSubmissionErrors (t : APIWorkflowTicket) : Bool :=
  (match t.node_errors with
   | some l => decide (0 < l.length)
   | none => false)
  || t.error.isSome || t.prompt_id.isNone

/-- `_CatapultInternal` (catapult.py lines 227-305), with `ticket` the engine's
response to `PostPrompt` and `isSlug` the collaborator slug test: duplicate and
slug validation, job creation, ticket recording and prompt indexing, then the
submission-error check, raising through the `_JobContext` on failure. -/
def catapultInternal (now : Time) (job_id : JobID) (wf : Workflow)
    (important : List NodeID) (isSlug : JobID → Bool)
    (ticket : APIWorkflowTicket) (s : CatState) :
    CatState × Except CatErr (JobStatus × FutureState) :=
  if (alookup job_id s.jobs).isSome = true then
    (s, Except.error (CatErr.duplicateJobID job_id))
  else if isSlug job_id = false then
    (s, Except.error (CatErr.invalidJobID job_id))
  else
    let job : Job :=
      { job_id := job_id, prepared_workflow := wf, important_nodes := important,
        status := newJobStatus now, errors := [], future := FutureState.pending,
        remote_job_status := RemoteStatus.PENDING_OR_RUNNING }
    let job := { job with status := { job.status with ticket := some ticket } }
    let s1 : CatState :=
      match ticket.prompt_id with
      | some pid =>
        { s with jobs := dinsert job_id job s.jobs,
                 prompt_id_index := dinsert pid job_id s.prompt_id_index }
      | none => { s with jobs := dinsert job_id job s.jobs }
    if hasSubmissionErrors ticket = true then
      let e := CatErr.workflowSubmission wf ticket
      let job := jobContextExit now e job
      ({ s1 with jobs := dinsert job_id job s1.jobs }, Except.error e)
    else
      let job := { job with status := { job.status with comfy_scheduled := some now } }
      ({ s1 with jobs := dinsert job_id job s1.jobs },
       Except.ok (job.status, job.future))

/-- `GetStatus` (catapult.py lines 307-311). -/
def getStatus (jid : JobID) (s : CatState) :
    Except CatErr (JobStatus × FutureState) :=
  match alookup jid s.jobs with
  | none => Except.error (CatErr.jobNotFound jid)
  | some j => Except.ok (j.status, j.future)

/-- `GetExceptions` (catapult.py lines 313-316). -/
def getExceptions (jid : JobID) (s : CatState) : Except CatErr (List CatErr) :=
  match alookup jid s.jobs with
  | none => Except.error (CatErr.jobNotFound jid)
  | some j => Except.ok j.errors

/-- `CancelJob` at the table level: a missing job id raises `JobNotFound`
through the `_JobContext` (which ignores unknown jobs), leaving the state
unchanged; otherwise the per-job cancel body runs. -/
def cancelJob (now : Time) (jid : JobID) (s : CatState) :
    CatState × Option CatErr :=
  match alookup jid s.jobs with
  | none => (s, some (CatErr.jobNotFound jid))
  | some j => ({ s with jobs := dinsert jid (cancelJobLocal now j) s.jobs }, none)

/-- The `executing`-with-prompt-id branch of `_LoopWS` (catapult.py lines
713-729): resolve the prompt through the index, mark the job running when
found, and overwrite the running guesses. -/
def wsExecuting (now : Time) (pidOpt : Option PromptID) (nodeOpt : Option String)
    (s : CatState) : CatState × Option CatErr :=
  let jobIdOpt := match pidOpt with
    | none => none
    | some pid => alookup pid s.prompt_id_index
  match jobIdOpt with
  | some jid =>
    match alookup jid s.jobs with
    | none => (s, some (CatErr.jobNotFound jid))
    | some j =>
      ({ s with jobs := dinsert jid (wsRunningJob now j) s.jobs,
                guess_job := some jid, guess_node := nodeOpt,
                guess_progress := none }, none)
  | none =>
      ({ s with guess_job := none, guess_node := nodeOpt,
                guess_progress := none }, none)

/-- The `execution_interrupted` / `execution_error` branch of `_LoopWS`
(catapult.py lines 769-798) at the table level. -/
def wsExecError (now : Time) (d : WSErrData) (s : CatState) :
    CatState × Option CatErr :=
  let jobIdOpt := match d.prompt_id with
    | none => none
    | some pid => alookup pid s.prompt_id_index
  match jobIdOpt with
  | some jid =>
    match alookup jid s.jobs with
    | none => (s, some (CatErr.jobNotFound jid))
    | some j =>
      ({ s with jobs := dinsert jid (wsExecErrorJob now d j) s.jobs,
                guess_job := none, guess_node := none,
                guess_progress := none }, none)
  | none =>
      ({ s with guess_job := none, guess_node := none,
                guess_progress := none }, none)

/-- First half of `_PollQueue` (catapult.py lines 537-548): build the
`prompt_id` to queue-status dict from the two queue lists (`queue_running`
entries become `running`, then `queue_pending` entries become `pending`). -/
def buildPromptStatuses (queue_running queue_pending : List PromptID) :
    List (PromptID × QueueStatus) :=
  let m := queue_running.foldl (fun m p => dinsert p QueueStatus.running m) []
  queue_pending.foldl (fun m p => dinsert p QueueStatus.pending m) m

/-- Second half of `_PollQueue` (catapult.py lines 553-564): route each probed
prompt through the index, skipping prompts that are not indexed or whose job is
not in the snapshot, then default every remaining job to `not_in_queue`. -/
def buildJobStatuses (prompt2status : List (PromptID × QueueStatus))
    (index : List (PromptID × JobID)) (job_ids : List JobID) :
    List (JobID × QueueStatus) :=
  let m := prompt2status.foldl (fun m pq =>
    match alookup pq.1 index with
    | none => m
    | some jid => if job_ids.contains jid then dinsert jid pq.2 m else m) []
  job_ids.foldl (fun m jid =>
    if (alookup jid m).isSome = true then m
    else dinsert jid QueueStatus.not_in_queue m) m

/-- Per-job application loop of `_PollQueue` (catapult.py lines 566-583). -/
def applyQueueStatuses (now : Time) (m : List (JobID × QueueStatus))
    (s : CatState) : CatState :=
  m.foldl (fun s jq =>
    match alookup jq.1 s.jobs with
    | none => s
    | some j => { s with jobs := dinsert jq.1 (pollQueueJob now jq.2 j) s.jobs }) s

/-- The queue probe: routing followed by per-job application. -/
def pollQueueState (now : Time) (prompt2status : List (PromptID × QueueStatus))
    (job_ids : List JobID) (s : CatState) : CatState :=
  applyQueueStatuses now (buildJobStatuses prompt2status s.prompt_id_index job_ids) s

/-- Awaiting a future: no value while pending, the result when resolved, the
exception when rejected, a cancellation error when cancelled. -/
def awaitFuture : FutureState → Option (Except CatErr APIHistoryEntry)
  | FutureState.pending => none
  | FutureState.resolved r => some (Except.ok r)
  | FutureState.rejected e => some (Except.error e)
  | FutureState.cancelled => some (Except.error CatErr.cancelledError)

/-- The two shapes `Catapult` can return: the status-and-future tuple of the
future API, or the awaited history-entry dict. -/
inductive CatapultReturn where
  | futureApi (st : JobStatus) (fut : FutureState)
  | history (h : APIHistoryEntry)
deriving DecidableEq, Repr

/-- `Catapult` (catapult.py lines 208-225): run the internal submission; in
future-API mode return the tuple, otherwise await the job's future, whose state
at the await is `finalFut`; `none` means the call has not returned. -/
def CatapultCall (use_future_api : Bool)
    (internal : CatState × Except CatErr (JobStatus × FutureState))
    (finalFut : FutureState) : Option (Except CatErr CatapultReturn) :=
  match internal.2 with
  | Except.error e => some (Except.error e)
  | Except.ok stfut =>
    if use_future_api then some (Except.ok (CatapultReturn.futureApi stfut.1 stfut.2))
    else
      match awaitFuture finalFut with
      | none => none
      | some (Except.ok h) => some (Except.ok (CatapultReturn.history h))
      | some (Except.error e) => some (Except.error e)

/-- Outcome-timestamp invariant maintained by every signal handler: a cancelled
job has a done future and no other outcome; a resolved future certifies the
`success` stamp and stores the recorded history entry; the `success` stamp
certifies a resolved future. -/
def Inv (j : Job) : Prop :=
  (j.status.cancelled.isSome = true →
      j.future.doneB = true ∧ j.status.success = none ∧ j.status.errored = none)
  ∧ (j.status.success.isSome = true → j.status.cancelled = none)
  ∧ (j.future.resolvedVal.isSome = true →
      j.status.success.isSome = true ∧ j.future.resolvedVal = j.status.job_history)
  ∧ (j.status.success.isSome = true → j.future.resolvedVal.isSome = true)

instance decidableInv (j : Job) : Decidable (Inv j) := by
  unfold Inv
  infer_instance

/-- Once an outcome timestamp is set it keeps its value. -/
def OutcomeLE (s1 s2 : JobStatus) : Prop :=
  (∀ t, s1.success = some t → s2.success = some t)
  ∧ (∀ t, s1.errored = some t → s2.errored = some t)
  ∧ (∀ t, s1.cancelled = some t → s2.cancelled = some t)

/-- Concrete successful submission ticket used by witnesses. -/
def ticket0 : APIWorkflowTicket :=
  { node_errors := none, number := none, prompt_id := some "p1", error := none }

/-- Concrete one-node workflow whose node 9 carries a title. -/
def wf0 : Workflow := [("9", { meta := some { title := some "SaveImage" } })]

/-- Slug test accepting everything, standing in for the collaborator check. -/
def slugAll : JobID → Bool := fun _ => true

/-- Empty orchestrator state. -/
def emptyState : CatState :=
  { jobs := [], prompt_id_index := [], guess_job := none, guess_node := none,
    guess_progress := none }

/-- State right after the successful submission of job `job-1`. -/
def submitState0 : CatState :=
  (catapultInternal 0 "job-1" wf0 ["9"] slugAll ticket0 emptyState).1

/-- The job record right after that successful submission. -/
def submitJob0 : Job :=
  { job_id := "job-1", prepared_workflow := wf0, important_nodes := ["9"],
    status := { scheduled := some 0, comfy_scheduled := some 0, pending := none,
                running := none, success := none, errored := none,
                cancelled := none, errors := [], system_stats_check := none,
                queue_check := none, ticket := some ticket0, job_history := none },
    errors := [], future := FutureState.pending,
    remote_job_status := RemoteStatus.PENDING_OR_RUNNING }

/-- Concrete stream error payload for prompt `p1`. -/
def wsErr0 : WSErrData :=
  { prompt_id := some "p1", node_id := some "5", node_type := some "KSampler" }

/-- Concrete completed history status block. -/
def goodStatus0 : APIHistoryEntryStatus :=
  { status_str := some "success", completed := some true, messages := some [] }

/-- Concrete history entry in which node 9 produced data. -/
def goodEntry0 : APIHistoryEntry :=
  { outputs := some [("9", ())],
    prompt := some { outputs_to_execute := some ["9"], extra_data := none },
    status := some goodStatus0 }

/-- Interleaving: a stream error for the job, then a poll-loop history probe
that finds a successful history entry. -/
def cexEvents : List JEvent :=
  [JEvent.wsError 1 wsErr0, JEvent.pollHistory 2 [("p1", goodEntry0)]]

/-- The job state that interleaving produces. -/
def cexJob1 : Job := applyEvents cexEvents submitJob0

/-- The job after only the stream error: terminal in status, future pending. -/
def wsErroredJob0 : Job := applyEvent (JEvent.wsError 1 wsErr0) submitJob0

/-- A job resolved as success, and a state containing it. -/
def doneJob0 : Job :=
  { submitJob0 with
    status := { submitJob0.status with success := some 3, job_history := some goodEntry0 },
    future := FutureState.resolved goodEntry0 }

/-- State in which `job-1` already resolved as success. -/
def doneState0 : CatState :=
  { submitState0 with jobs := dinsert "job-1" doneJob0 submitState0.jobs }

/-- Submission ticket carrying both a prompt id and an error field. -/
def badTicket0 : APIWorkflowTicket :=
  { node_errors := none, number := none, prompt_id := some "p1",
    error := some "boom" }

/-- Stream error payload whose prompt id is unknown to the index. -/
def wsErrUnknown : WSErrData :=
  { prompt_id := some "zz", node_id := none, node_type := none }

/-- History entry whose engine status block reports completed = false. -/
def failedEntry0 : APIHistoryEntry :=
  { outputs := some [("9", ())],
    prompt := some { outputs_to_execute := some ["9"], extra_data := none },
    status := some { status_str := some "error", completed := some false,
                     messages := some [{ name := "execution_error" }] } }

/-- Concrete internal-submission result of the successful submission: the
status snapshot and the still-pending future returned by the internal call. -/
def internal0 : CatState × Except CatErr (JobStatus × FutureState) :=
  (submitState0, Except.ok (submitJob0.status, FutureState.pending))

/-- The job after the poll-loop history probe resolves it Success. -/
def succJob0 : Job :=
  applyEvent (JEvent.pollHistory 2 [("p1", goodEntry0)]) submitJob0

/-- History entry in which important node 9 should have executed but has no
output data. -/
def missingEntry0 : APIHistoryEntry :=
  { outputs := some [],
    prompt := some { outputs_to_execute := some ["9"], extra_data := none },
    status := some goodStatus0 }

end ComfyCatapult

namespace ComfyCatapult

theorem isSome_false_iff {α : Type} (o : Option α) : o.isSome = false ↔ o = none := by
  cases o <;> simp

theorem isDone_false_iff (s : JobStatus) :
    s.IsDone = false ↔ s.success = none ∧ s.errored = none ∧ s.cancelled = none := by
  simp [JobStatus.IsDone, isSome_false_iff, and_assoc]

theorem alookup_dinsert_self {α : Type} (k : String) (v : α) :
    ∀ m : List (String × α), alookup k (dinsert k v m) = some v
  | [] => by simp [alookup, dinsert]
  | (k0, v0) :: rest => by
    by_cases h : k = k0
    · simp [alookup, dinsert, h]
    · simp [alookup, dinsert, h, alookup_dinsert_self k v rest]

theorem alookup_dinsert_ne {α : Type} (k k2 : String) (v : α) (h : k ≠ k2) :
    ∀ m : List (String × α), alookup k (dinsert k2 v m) = alookup k m
  | [] => by simp [alookup, dinsert, h]
  | (k0, v0) :: rest => by
    by_cases h2 : k2 = k0
    · subst h2
      simp [alookup, dinsert, h]
    · by_cases h3 : k = k0
      · simp [alookup, dinsert, h2, h3]
      · simp [alookup, dinsert, h2, h3, alookup_dinsert_ne k k2 v h rest]

theorem jobContextExit_eq (now : Time) (e : CatErr) (j : Job) :
    jobContextExit now e j =
      (if j.status.IsDone = false then
        { j with
          future := if j.future.doneB = false then FutureState.rejected e else j.future,
          errors := j.errors ++ [e],
          status := { j.status with
            errored := some now,
            errors := j.status.errors ++ [ErrEntry.fromExc e] } }
      else
        { j with
          future := if j.future.doneB = false then FutureState.rejected e else j.future }) := by
  unfold jobContextExit
  by_cases hf : j.future.doneB = false <;> by_cases hd : j.status.IsDone = false <;>
    simp [hf, hd]

theorem resolvedVal_none_of_not_done (f : FutureState) (h : f.doneB = false) :
    f.resolvedVal = none := by
  cases f <;> simp [FutureState.doneB, FutureState.resolvedVal] at h ⊢

theorem inv_jobContextExit (now : Time) (e : CatErr) (j : Job) (h : Inv j) :
    Inv (jobContextExit now e j) := by
  obtain ⟨h1, h2, h3, h4⟩ := h
  rw [jobContextExit_eq]
  by_cases hd : j.status.IsDone = false
  · obtain ⟨hs, he, hc⟩ := (isDone_false_iff j.status).mp hd
    rw [if_pos hd]
    by_cases hf : j.future.doneB = false
    · rw [if_pos hf]
      simp [Inv, hs, hc, FutureState.resolvedVal]
    · rw [if_neg hf]
      refine ⟨by simp [Inv, hc], by simp [Inv, hs], ?_, by simp [Inv, hs]⟩
      intro hr
      simp only at hr
      have := (h3 hr).1
      rw [hs] at this
      simp at this
  · rw [if_neg hd]
    by_cases hf : j.future.doneB = false
    · rw [if_pos hf]
      refine ⟨?_, h2, ?_, ?_⟩
      · intro hcs
        have := (h1 hcs).1
        rw [this] at hf
        simp at hf
      · intro hr
        simp [FutureState.resolvedVal] at hr
      · intro hss
        have := h4 hss
        rw [resolvedVal_none_of_not_done j.future hf] at this
        simp at this
    · rw [if_neg hf]
      exact ⟨h1, h2, h3, h4⟩

theorem futCancel_doneB (f : FutureState) : (futCancel f).doneB = true := by
  cases f <;> simp [futCancel, FutureState.doneB]

theorem futCancel_resolvedVal (f : FutureState) :
    (futCancel f).resolvedVal = f.resolvedVal := by
  cases f <;> simp [futCancel, FutureState.resolvedVal]

theorem inv_wsExecErrorJob (now : Time) (d : WSErrData) (j : Job) (h : Inv j) :
    Inv (wsExecErrorJob now d j) := by
  obtain ⟨h1, h2, h3, h4⟩ := h
  unfold wsExecErrorJob
  by_cases hd : j.status.IsDone = false
  · obtain ⟨hs, he, hc⟩ := (isDone_false_iff j.status).mp hd
    rw [if_pos hd]
    refine ⟨by simp [hc], by simp [hs], ?_, by simp [hs]⟩
    intro hr
    have := (h3 hr).1
    rw [hs] at this
    simp at this
  · rw [if_neg hd]
    exact ⟨h1, h2, h3, h4⟩

theorem inv_wsRunningJob (now : Time) (j : Job) (h : Inv j) :
    Inv (wsRunningJob now j) := by
  obtain ⟨h1, h2, h3, h4⟩ := h
  unfold wsRunningJob
  split
  · exact ⟨h1, h2, h3, h4⟩
  · exact ⟨h1, h2, h3, h4⟩

theorem inv_pollQueueJob (now : Time) (qs : QueueStatus) (j : Job) (h : Inv j) :
    Inv (pollQueueJob now qs j) := by
  obtain ⟨h1, h2, h3, h4⟩ := h
  simp only [pollQueueJob]
  split <;> split <;> exact ⟨h1, h2, h3, h4⟩

theorem inv_pollSystemStatsJob (now : Time) (j : Job) (h : Inv j) :
    Inv (pollSystemStatsJob now j) := by
  obtain ⟨h1, h2, h3, h4⟩ := h
  unfold pollSystemStatsJob
  split
  · exact ⟨h1, h2, h3, h4⟩
  · split
    · exact ⟨h1, h2, h3, h4⟩
    · exact ⟨h1, h2, h3, h4⟩

theorem inv_pollFuturesJob (now : Time) (j : Job) (h : Inv j) :
    Inv (pollFuturesJob now j) := by
  obtain ⟨h1, h2, h3, h4⟩ := h
  unfold pollFuturesJob
  split
  · next hcond =>
    obtain ⟨hdone, hnd⟩ := hcond
    obtain ⟨hs, he, hc⟩ := (isDone_false_iff j.status).mp hnd
    cases hfut : j.future with
    | resolved r =>
      exfalso
      have hr : j.future.resolvedVal.isSome = true := by
        rw [hfut]
        rfl
      have := (h3 hr).1
      rw [hs] at this
      simp at this
    | rejected e => exact inv_jobContextExit now e j ⟨h1, h2, h3, h4⟩
    | cancelled => exact inv_jobContextExit now CatErr.cancelledError j ⟨h1, h2, h3, h4⟩
    | pending => exact ⟨h1, h2, h3, h4⟩
  · exact ⟨h1, h2, h3, h4⟩

theorem inv_cancelJobLocal (now : Time) (j : Job) (h : Inv j) :
    Inv (cancelJobLocal now j) := by
  obtain ⟨h1, h2, h3, h4⟩ := h
  simp only [cancelJobLocal]
  split
  · split
    · next hd =>
      obtain ⟨hs, he, hc⟩ := (isDone_false_iff j.status).mp hd
      refine ⟨?_, by simp [hs], ?_, by simp [hs]⟩
      · intro _
        exact ⟨futCancel_doneB _, by simp [hs], by simp [he]⟩
      · intro hrv
        have hrv2 : (futCancel j.future).resolvedVal.isSome = true := hrv
        rw [futCancel_resolvedVal] at hrv2
        have := (h3 hrv2).1
        rw [hs] at this
        simp at this
    · exact ⟨h1, h2, h3, h4⟩
  · split
    · next hd =>
      obtain ⟨hs, he, hc⟩ := (isDone_false_iff j.status).mp hd
      refine ⟨?_, by simp [hs], ?_, by simp [hs]⟩
      · intro _
        exact ⟨futCancel_doneB _, by simp [hs], by simp [he]⟩
      · intro hrv
        have hrv2 : (futCancel j.future).resolvedVal.isSome = true := hrv
        rw [futCancel_resolvedVal] at hrv2
        have := (h3 hrv2).1
        rw [hs] at this
        simp at this
    · exact ⟨h1, h2, h3, h4⟩

theorem inv_receivedJobHistoryOutputs (now : Time) (jh : APIHistoryEntry) (j : Job)
    (h : Inv j) (hjh : j.status.job_history = some jh) :
    Inv (receivedJobHistoryOutputs now jh j).1 := by
  obtain ⟨h1, h2, h3, h4⟩ := h
  simp only [receivedJobHistoryOutputs]
  by_cases hdl : datalessImportant j.important_nodes jh = []
  · rw [if_pos hdl]
    cases hfut : j.future with
    | pending =>
      have hcnone : j.status.cancelled = none := by
        rcases hcs : j.status.cancelled with _ | t
        · rfl
        · exfalso
          have := (h1 (by rw [hcs]; rfl)).1
          rw [hfut] at this
          simp [FutureState.doneB] at this
      refine ⟨by simp [hcnone], by simp [hcnone], ?_, ?_⟩
      · intro _
        exact ⟨rfl, by simp [FutureState.resolvedVal, hjh]⟩
      · intro _
        rfl
    | resolved r => exact ⟨h1, h2, h3, h4⟩
    | rejected e => exact ⟨h1, h2, h3, h4⟩
    | cancelled => exact ⟨h1, h2, h3, h4⟩
  · rw [if_neg hdl]
    exact ⟨h1, h2, h3, h4⟩

theorem inv_receivedJobHistory (now : Time) (history : APIHistory) (qs : QueueStatus)
    (j : Job) (h : Inv j) (hjh0 : j.status.job_history = none) :
    Inv (receivedJobHistory now history qs j).1 := by
  have hrv : j.future.resolvedVal = none := by
    rcases hx : j.future.resolvedVal with _ | r
    · rfl
    · exfalso
      have := (h.2.2.1 (by rw [hx]; rfl)).2
      rw [hx, hjh0] at this
      simp at this
  obtain ⟨h1, h2, h3, h4⟩ := h
  simp only [receivedJobHistory]
  split
  · split
    · exact ⟨h1, h2, h3, h4⟩
    · exact ⟨h1, h2, h3, h4⟩
  · split
    · exact ⟨h1, h2, h3, h4⟩
    · next pid =>
      split
      · exact ⟨h1, h2, h3, h4⟩
      · next jh hlook =>
        have hinv1 : Inv { j with status := { j.status with job_history := some jh } } := by
          refine ⟨h1, h2, ?_, ?_⟩
          · intro hr
            have hr2 : j.future.resolvedVal.isSome = true := hr
            rw [hrv] at hr2
            simp at hr2
          · intro hss
            have hss2 : j.status.success.isSome = true := hss
            have := h4 hss2
            rw [hrv] at this
            simp at this
        split
        · next st =>
          split
          · exact hinv1
          · exact inv_receivedJobHistoryOutputs now jh _ hinv1 rfl
        · exact inv_receivedJobHistoryOutputs now jh _ hinv1 rfl

theorem inv_pollHistoryUpdateJobHistory (now : Time) (history : APIHistory)
    (qs : QueueStatus) (j : Job) (h : Inv j) :
    Inv (pollHistoryUpdateJobHistory now history qs j) := by
  unfold pollHistoryUpdateJobHistory
  split
  · exact h
  · next hjhs =>
    have hjh : j.status.job_history = none := by
      rcases hx : j.status.job_history with _ | v
      · rfl
      · exfalso
        rw [hx] at hjhs
        simp at hjhs
    split
    · exact inv_jobContextExit now _ j h
    · rcases hres : receivedJobHistory now history qs j with ⟨j1, oe⟩
      have hinv1 : Inv j1 := by
        have := inv_receivedJobHistory now history qs j h hjh
        rw [hres] at this
        exact this
      cases oe with
      | none => exact hinv1
      | some e => exact inv_jobContextExit now e j1 hinv1

theorem inv_applyEvent (e : JEvent) (j : Job) (h : Inv j) : Inv (applyEvent e j) := by
  cases e with
  | wsRunning now => exact inv_wsRunningJob now j h
  | wsError now d => exact inv_wsExecErrorJob now d j h
  | pollQueue now qs => exact inv_pollQueueJob now qs j h
  | pollSystemStats now => exact inv_pollSystemStatsJob now j h
  | pollFutures now => exact inv_pollFuturesJob now j h
  | pollHistory now history => exact inv_pollHistoryUpdateJobHistory now history QueueStatus.not_in_queue j h
  | cancel now => exact inv_cancelJobLocal now j h
  | ctxError now e2 => exact inv_jobContextExit now e2 j h
  | futureCancel =>
    obtain ⟨h1, h2, h3, h4⟩ := h
    show Inv { j with future := futCancel j.future }
    refine ⟨?_, h2, ?_, ?_⟩
    · intro hcs
      have hcs2 : j.status.cancelled.isSome = true := hcs
      have := h1 hcs2
      exact ⟨futCancel_doneB _, this.2.1, this.2.2⟩
    · intro hr
      have hr2 : (futCancel j.future).resolvedVal.isSome = true := hr
      rw [futCancel_resolvedVal] at hr2
      have h5 := h3 hr2
      refine ⟨h5.1, ?_⟩
      show (futCancel j.future).resolvedVal = j.status.job_history
      rw [futCancel_resolvedVal]
      exact h5.2
    · intro hss
      have hss2 : j.status.success.isSome = true := hss
      have h6 := h4 hss2
      show (futCancel j.future).resolvedVal.isSome = true
      rw [futCancel_resolvedVal]
      exact h6
  | pollRemote present => exact h

theorem inv_applyEvents (evs : List JEvent) (j : Job) (h : Inv j) :
    Inv (applyEvents evs j) := by
  induction evs generalizing j with
  | nil => exact h
  | cons e rest ih => exact ih (applyEvent e j) (inv_applyEvent e j h)

theorem inv_reachable (j0 j : Job) (h0 : Inv j0) (hr : Reachable j0 j) : Inv j := by
  obtain ⟨evs, heq⟩ := hr
  rw [← heq]
  exact inv_applyEvents evs j0 h0

theorem outcomeLE_of_eq (s1 s2 : JobStatus) (hs : s2.success = s1.success)
    (he : s2.errored = s1.errored) (hc : s2.cancelled = s1.cancelled) :
    OutcomeLE s1 s2 :=
  ⟨fun t ht => by rw [hs, ht], fun t ht => by rw [he, ht], fun t ht => by rw [hc, ht]⟩

theorem outcomeLE_refl (s : JobStatus) : OutcomeLE s s :=
  outcomeLE_of_eq s s rfl rfl rfl

theorem outcomeLE_trans (s1 s2 s3 : JobStatus) (a : OutcomeLE s1 s2)
    (b : OutcomeLE s2 s3) : OutcomeLE s1 s3 :=
  ⟨fun t ht => b.1 t (a.1 t ht), fun t ht => b.2.1 t (a.2.1 t ht),
   fun t ht => b.2.2 t (a.2.2 t ht)⟩

theorem persist_jobContextExit (now : Time) (e : CatErr) (j : Job) :
    OutcomeLE j.status (jobContextExit now e j).status := by
  rw [jobContextExit_eq]
  by_cases hd : j.status.IsDone = false
  · obtain ⟨hs, he, hc⟩ := (isDone_false_iff j.status).mp hd
    rw [if_pos hd]
    refine ⟨fun t ht => ht, fun t ht => ?_, fun t ht => ht⟩
    rw [he] at ht
    simp at ht
  · rw [if_neg hd]
    exact outcomeLE_of_eq _ _ rfl rfl rfl

theorem persist_wsExecErrorJob (now : Time) (d : WSErrData) (j : Job) :
    OutcomeLE j.status (wsExecErrorJob now d j).status := by
  unfold wsExecErrorJob
  by_cases hd : j.status.IsDone = false
  · obtain ⟨hs, he, hc⟩ := (isDone_false_iff j.status).mp hd
    rw [if_pos hd]
    refine ⟨fun t ht => ht, fun t ht => ?_, fun t ht => ht⟩
    rw [he] at ht
    simp at ht
  · rw [if_neg hd]
    exact outcomeLE_refl _

theorem persist_wsRunningJob (now : Time) (j : Job) :
    OutcomeLE j.status (wsRunningJob now j).status := by
  unfold wsRunningJob
  split
  · exact outcomeLE_of_eq _ _ rfl rfl rfl
  · exact outcomeLE_refl _

theorem persist_pollQueueJob (now : Time) (qs : QueueStatus) (j : Job) :
    OutcomeLE j.status (pollQueueJob now qs j).status := by
  simp only [pollQueueJob]
  split <;> split <;> exact outcomeLE_of_eq _ _ rfl rfl rfl

theorem persist_pollSystemStatsJob (now : Time) (j : Job) :
    OutcomeLE j.status (pollSystemStatsJob now j).status := by
  unfold pollSystemStatsJob
  split
  · exact outcomeLE_refl _
  · split
    · exact outcomeLE_of_eq _ _ rfl rfl rfl
    · exact outcomeLE_refl _

theorem persist_pollFuturesJob (now : Time) (j : Job) :
    OutcomeLE j.status (pollFuturesJob now j).status := by
  unfold pollFuturesJob
  split
  · next hcond =>
    obtain ⟨hdone, hnd⟩ := hcond
    obtain ⟨hs, he, hc⟩ := (isDone_false_iff j.status).mp hnd
    cases hfut : j.future with
    | resolved r =>
      refine ⟨fun t ht => ?_, fun t ht => ht, fun t ht => ht⟩
      rw [hs] at ht
      simp at ht
    | rejected e => exact persist_jobContextExit now e j
    | cancelled => exact persist_jobContextExit now CatErr.cancelledError j
    | pending => exact outcomeLE_refl _
  · exact outcomeLE_refl _

theorem persist_cancelJobLocal (now : Time) (j : Job) :
    OutcomeLE j.status (cancelJobLocal now j).status := by
  simp only [cancelJobLocal]
  split
  · split
    · next hd =>
      obtain ⟨hs, he, hc⟩ := (isDone_false_iff j.status).mp hd
      refine ⟨fun t ht => ht, fun t ht => ht, fun t ht => ?_⟩
      rw [hc] at ht
      simp at ht
    · exact outcomeLE_of_eq _ _ rfl rfl rfl
  · split
    · next hd =>
      obtain ⟨hs, he, hc⟩ := (isDone_false_iff j.status).mp hd
      refine ⟨fun t ht => ht, fun t ht => ht, fun t ht => ?_⟩
      rw [hc] at ht
      simp at ht
    · exact outcomeLE_refl _

theorem resolvedVal_none_of_no_history (j : Job) (h : Inv j)
    (hjh0 : j.status.job_history = none) : j.future.resolvedVal = none := by
  rcases hx : j.future.resolvedVal with _ | r
  · rfl
  · exfalso
    have := (h.2.2.1 (by rw [hx]; rfl)).2
    rw [hx, hjh0] at this
    simp at this

theorem inv_set_job_history (j : Job) (jh : APIHistoryEntry) (h : Inv j)
    (hjh0 : j.status.job_history = none) :
    Inv { j with status := { j.status with job_history := some jh } } := by
  have hrv := resolvedVal_none_of_no_history j h hjh0
  obtain ⟨h1, h2, h3, h4⟩ := h
  refine ⟨h1, h2, ?_, ?_⟩
  · intro hr
    have hr2 : j.future.resolvedVal.isSome = true := hr
    rw [hrv] at hr2
    simp at hr2
  · intro hss
    have hss2 : j.status.success.isSome = true := hss
    have := h4 hss2
    rw [hrv] at this
    simp at this

theorem persist_receivedJobHistoryOutputs (now : Time) (jh : APIHistoryEntry)
    (j : Job) (h : Inv j) :
    OutcomeLE j.status (receivedJobHistoryOutputs now jh j).1.status := by
  simp only [receivedJobHistoryOutputs]
  by_cases hdl : datalessImportant j.important_nodes jh = []
  · rw [if_pos hdl]
    cases hfut : j.future with
    | pending =>
      refine ⟨fun t ht => ?_, fun t ht => ht, fun t ht => ht⟩
      exfalso
      have := h.2.2.2 (by rw [ht]; rfl)
      rw [hfut] at this
      simp [FutureState.resolvedVal] at this
    | resolved r => exact outcomeLE_refl _
    | rejected e => exact outcomeLE_refl _
    | cancelled => exact outcomeLE_refl _
  · rw [if_neg hdl]
    exact outcomeLE_refl _

theorem persist_receivedJobHistory (now : Time) (history : APIHistory)
    (qs : QueueStatus) (j : Job) (h : Inv j)
    (hjh0 : j.status.job_history = none) :
    OutcomeLE j.status (receivedJobHistory now history qs j).1.status := by
  simp only [receivedJobHistory]
  split
  · split
    · exact outcomeLE_refl _
    · exact outcomeLE_refl _
  · split
    · exact outcomeLE_refl _
    · next pid =>
      split
      · exact outcomeLE_refl _
      · next jh hlook =>
        have hinv1 := inv_set_job_history j jh h hjh0
        have hle0 : OutcomeLE j.status
            ({ j with status := { j.status with job_history := some jh } }).status :=
          outcomeLE_of_eq _ _ rfl rfl rfl
        split
        · next st =>
          split
          · exact hle0
          · exact outcomeLE_trans _ _ _ hle0 (persist_receivedJobHistoryOutputs now jh _ hinv1)
        · exact outcomeLE_trans _ _ _ hle0 (persist_receivedJobHistoryOutputs now jh _ hinv1)

theorem persist_pollHistoryUpdateJobHistory (now : Time) (history : APIHistory)
    (qs : QueueStatus) (j : Job) (h : Inv j) :
    OutcomeLE j.status (pollHistoryUpdateJobHistory now history qs j).status := by
  unfold pollHistoryUpdateJobHistory
  split
  · exact outcomeLE_refl _
  · next hjhs =>
    have hjh : j.status.job_history = none := by
      rcases hx : j.status.job_history with _ | v
      · rfl
      · exfalso
        rw [hx] at hjhs
        simp at hjhs
    split
    · exact persist_jobContextExit now _ j
    · rcases hres : receivedJobHistory now history qs j with ⟨j1, oe⟩
      have hle1 : OutcomeLE j.status j1.status := by
        have := persist_receivedJobHistory now history qs j h hjh
        rw [hres] at this
        exact this
      cases oe with
      | none => exact hle1
      | some e => exact outcomeLE_trans _ _ _ hle1 (persist_jobContextExit now e j1)

theorem persist_applyEvent (e : JEvent) (j : Job) (h : Inv j) :
    OutcomeLE j.status (applyEvent e j).status := by
  cases e with
  | wsRunning now => exact persist_wsRunningJob now j
  | wsError now d => exact persist_wsExecErrorJob now d j
  | pollQueue now qs => exact persist_pollQueueJob now qs j
  | pollSystemStats now => exact persist_pollSystemStatsJob now j
  | pollFutures now => exact persist_pollFuturesJob now j
  | pollHistory now history =>
    exact persist_pollHistoryUpdateJobHistory now history QueueStatus.not_in_queue j h
  | cancel now => exact persist_cancelJobLocal now j
  | ctxError now e2 => exact persist_jobContextExit now e2 j
  | futureCancel => exact outcomeLE_of_eq _ _ rfl rfl rfl
  | pollRemote present => exact outcomeLE_of_eq _ _ rfl rfl rfl

theorem persist_applyEvents (evs : List JEvent) (j : Job) (h : Inv j) :
    OutcomeLE j.status (applyEvents evs j).status := by
  induction evs generalizing j with
  | nil => exact outcomeLE_refl _
  | cons e rest ih =>
    exact outcomeLE_trans _ _ _ (persist_applyEvent e j h)
      (ih (applyEvent e j) (inv_applyEvent e j h))

theorem persist_reachable (j0 j : Job) (h0 : Inv j0) (hr : Reachable j0 j) :
    OutcomeLE j0.status j.status := by
  obtain ⟨evs, heq⟩ := hr
  rw [← heq]
  exact persist_applyEvents evs j0 h0

theorem cancelJobLocal_done (now : Time) (j : Job) (hdone : j.status.IsDone = true) :
    (cancelJobLocal now j).status = j.status ∧ (cancelJobLocal now j).future = j.future := by
  simp only [cancelJobLocal]
  split
  · split
    · next hdd =>
      exfalso
      have hdd2 : j.status.IsDone = false := hdd
      rw [hdone] at hdd2
      simp at hdd2
    · exact ⟨rfl, rfl⟩
  · split
    · next hdd =>
      exfalso
      have hdd2 : j.status.IsDone = false := hdd
      rw [hdone] at hdd2
      simp at hdd2
    · exact ⟨rfl, rfl⟩

/-- C1 (amended): for every job and reachable interleaving of poll-loop,
event-stream, cancel and context signals, the cancelled timestamp excludes the
other two outcome timestamps, a success or errored timestamp excludes
cancelled, and every outcome timestamp keeps its value once set; success and
errored, however, may both become non-null (see the counterexample). -/
theorem claim_C1_amended (j0 j : Job) (h0 : Inv j0) (hr : Reachable j0 j) :
    (j.status.cancelled.isSome = true →
        j.status.success = none ∧ j.status.errored = none)
    ∧ (j.status.success.isSome = true ∨ j.status.errored.isSome = true →
        j.status.cancelled = none)
    ∧ (∀ j2, Reachable j j2 → OutcomeLE j.status j2.status) := by
  have hinv := inv_reachable j0 j h0 hr
  obtain ⟨h1, h2, h3, h4⟩ := hinv
  refine ⟨fun hc => ⟨(h1 hc).2.1, (h1 hc).2.2⟩, ?_, ?_⟩
  · intro hor
    cases hor with
    | inl hs => exact h2 hs
    | inr he =>
      rcases hx : j.status.cancelled with _ | t
      · rfl
      · exfalso
        have := (h1 (by rw [hx]; rfl)).2.2
        rw [this] at he
        simp at he
  · intro j2 hr2
    exact persist_reachable j j2 ⟨h1, h2, h3, h4⟩ hr2

/-- C1 counterexample: from the post-submission job, a stream
execution_error (which sets errored but leaves the future unresolved) followed
by a poll-loop history probe that finds a successful history entry yields a
reachable state in which both errored and success are non-null, refuting the
at-most-one-terminal claim. -/
theorem claim_C1_counterexample :
    Inv submitJob0
    ∧ Reachable submitJob0 cexJob1
    ∧ cexJob1.status.errored = some 1
    ∧ cexJob1.status.success = some 2 :=
  ⟨by decide, ⟨cexEvents, rfl⟩, by decide, by decide⟩

/-- Witness for claim_C1_amended at the concrete post-submission job. -/
theorem claim_C1_amended_witness :
    (submitJob0.status.cancelled.isSome = true →
        submitJob0.status.success = none ∧ submitJob0.status.errored = none)
    ∧ (submitJob0.status.success.isSome = true ∨ submitJob0.status.errored.isSome = true →
        submitJob0.status.cancelled = none)
    ∧ (∀ j2, Reachable submitJob0 j2 → OutcomeLE submitJob0.status j2.status) :=
  claim_C1_amended submitJob0 submitJob0 (by decide) ⟨[], rfl⟩

/-- C6 counterexample: on a job made terminal by the stream error handler
(errored set, future still pending), a further error signal through the job
context appends nothing to either errors log (the job record's errors list
stays empty and the status errors list is unchanged), while the future IS
touched (rejected) — refuting both halves of the claim. -/
theorem claim_C6_counterexample :
    wsErroredJob0.status.IsDone = true
    ∧ wsErroredJob0.future = FutureState.pending
    ∧ (jobContextExit 4 CatErr.promptIdNone wsErroredJob0).errors = ([] : List CatErr)
    ∧ (jobContextExit 4 CatErr.promptIdNone wsErroredJob0).status.errors
        = wsErroredJob0.status.errors
    ∧ (jobContextExit 4 CatErr.promptIdNone wsErroredJob0).future
        = FutureState.rejected CatErr.promptIdNone := by
  refine ⟨by decide, by decide, by decide, by decide, by decide⟩

/-- C6 (amended): an error signal applied to an already-terminal job leaves the
outcome timestamps and both error logs unchanged — the stream handler is a
complete no-op and the job-context handler changes nothing in the status — but
the job-context handler does reject the result future when it is still
unresolved. -/
theorem claim_C6_amended (now : Time) (e : CatErr) (d : WSErrData) (j : Job)
    (hdone : j.status.IsDone = true) :
    wsExecErrorJob now d j = j
    ∧ (jobContextExit now e j).status = j.status
    ∧ (jobContextExit now e j).errors = j.errors
    ∧ (jobContextExit now e j).future
        = (if j.future.doneB = false then FutureState.rejected e else j.future) := by
  have hd2 : ¬ (j.status.IsDone = false) := by
    rw [hdone]
    simp
  refine ⟨?_, ?_, ?_, ?_⟩
  · unfold wsExecErrorJob
    rw [if_neg hd2]
  · rw [jobContextExit_eq, if_neg hd2]
  · rw [jobContextExit_eq, if_neg hd2]
  · rw [jobContextExit_eq, if_neg hd2]

/-- Witness for claim_C6_amended at a job already resolved as success. -/
theorem claim_C6_amended_witness :
    wsExecErrorJob 9 wsErr0 doneJob0 = doneJob0
    ∧ (jobContextExit 9 CatErr.promptIdNone doneJob0).status = doneJob0.status
    ∧ (jobContextExit 9 CatErr.promptIdNone doneJob0).errors = doneJob0.errors
    ∧ (jobContextExit 9 CatErr.promptIdNone doneJob0).future
        = (if doneJob0.future.doneB = false then FutureState.rejected CatErr.promptIdNone
           else doneJob0.future) :=
  claim_C6_amended 9 CatErr.promptIdNone wsErr0 doneJob0 (by decide)

/-- C7: calling CancelJob on a job that is already terminal raises nothing,
leaves the job's status record entirely unchanged (in particular no cancelled
timestamp is set) and leaves the job's result future untouched. -/
theorem claim_C7 (now : Time) (jid : JobID) (s : CatState) (j : Job)
    (hj : alookup jid s.jobs = some j) (hdone : j.status.IsDone = true) :
    (cancelJob now jid s).2 = none
    ∧ (alookup jid (cancelJob now jid s).1.jobs).map (fun j2 => j2.status)
        = some j.status
    ∧ (alookup jid (cancelJob now jid s).1.jobs).map (fun j2 => j2.future)
        = some j.future := by
  obtain ⟨hst, hfu⟩ := cancelJobLocal_done now j hdone
  refine ⟨?_, ?_, ?_⟩
  · simp [cancelJob, hj]
  · simp only [cancelJob, hj]
    rw [alookup_dinsert_self]
    simp [hst]
  · simp only [cancelJob, hj]
    rw [alookup_dinsert_self]
    simp [hfu]

/-- Witness for claim_C7 on the state whose job job-1 already succeeded. -/
theorem claim_C7_witness :
    (cancelJob 7 "job-1" doneState0).2 = none
    ∧ (alookup "job-1" (cancelJob 7 "job-1" doneState0).1.jobs).map (fun j2 => j2.status)
        = some doneJob0.status
    ∧ (alookup "job-1" (cancelJob 7 "job-1" doneState0).1.jobs).map (fun j2 => j2.future)
        = some doneJob0.future :=
  claim_C7 7 "job-1" doneState0 doneJob0 (by decide) (by decide)

/-- C3 counterexample: an execution_error stream envelope routed to the fresh,
not-yet-terminal job job-1 DOES set an outcome timestamp (errored), refuting
the claim that this handler sets no outcome timestamp. -/
theorem claim_C3_counterexample :
    (alookup "job-1" (wsExecError 5 wsErr0 submitState0).1.jobs).map
        (fun j => j.status.errored) = some (some 5)
    ∧ (alookup "job-1" (wsExecError 5 wsErr0 submitState0).1.jobs).map
        (fun j => j.status.IsDone) = some true := by
  exact ⟨by decide, by decide⟩

/-- C3 (amended): for every execution_interrupted / execution_error envelope
whose prompt id resolves to a known, not-yet-terminal job, the handler appends
the structured error (node id, node type, raw payload) AND sets the errored
timestamp, making the job terminal in status; the result future and the other
outcome timestamps are untouched, so the future's final disposition is still
left to the poll loop or an explicit cancel. -/
theorem claim_C3_amended (now : Time) (d : WSErrData) (s : CatState)
    (pid : PromptID) (jid : JobID) (j : Job)
    (hp : d.prompt_id = some pid)
    (hidx : alookup pid s.prompt_id_index = some jid)
    (hj : alookup jid s.jobs = some j)
    (hnd : j.status.IsDone = false) :
    (wsExecError now d s).2 = none
    ∧ alookup jid (wsExecError now d s).1.jobs = some
        { j with status := { j.status with
            errored := some now,
            errors := j.status.errors ++ [ErrEntry.fromWS d.node_id d.node_type d] } }
    ∧ (alookup jid (wsExecError now d s).1.jobs).map (fun j2 => j2.future)
        = some j.future
    ∧ (alookup jid (wsExecError now d s).1.jobs).map (fun j2 => j2.status.success)
        = some j.status.success
    ∧ (alookup jid (wsExecError now d s).1.jobs).map (fun j2 => j2.status.cancelled)
        = some j.status.cancelled := by
  have hws : wsExecErrorJob now d j = { j with status := { j.status with
      errored := some now,
      errors := j.status.errors ++ [ErrEntry.fromWS d.node_id d.node_type d] } } := by
    unfold wsExecErrorJob
    rw [if_pos hnd]
  refine ⟨?_, ?_, ?_, ?_, ?_⟩
  · simp [wsExecError, hp, hidx, hj]
  · simp only [wsExecError, hp, hidx, hj]
    rw [alookup_dinsert_self, hws]
  · simp only [wsExecError, hp, hidx, hj]
    rw [alookup_dinsert_self, hws]
    rfl
  · simp only [wsExecError, hp, hidx, hj]
    rw [alookup_dinsert_self, hws]
    rfl
  · simp only [wsExecError, hp, hidx, hj]
    rw [alookup_dinsert_self, hws]
    rfl

/-- Witness for claim_C3_amended on the fresh post-submission state. -/
theorem claim_C3_amended_witness :
    (wsExecError 5 wsErr0 submitState0).2 = none
    ∧ alookup "job-1" (wsExecError 5 wsErr0 submitState0).1.jobs = some
        { submitJob0 with status := { submitJob0.status with
            errored := some 5,
            errors := submitJob0.status.errors
              ++ [ErrEntry.fromWS wsErr0.node_id wsErr0.node_type wsErr0] } }
    ∧ (alookup "job-1" (wsExecError 5 wsErr0 submitState0).1.jobs).map
        (fun j2 => j2.future) = some submitJob0.future
    ∧ (alookup "job-1" (wsExecError 5 wsErr0 submitState0).1.jobs).map
        (fun j2 => j2.status.success) = some submitJob0.status.success
    ∧ (alookup "job-1" (wsExecError 5 wsErr0 submitState0).1.jobs).map
        (fun j2 => j2.status.cancelled) = some submitJob0.status.cancelled :=
  claim_C3_amended 5 wsErr0 submitState0 "p1" "job-1" submitJob0 rfl
    (by decide) (by decide) (by decide)

/-- C5: a job whose queue status is not-in-queue and whose history query
returns an empty history map becomes terminal Errored with the orphan error
recorded in both error logs and the result future rejected with it. -/
theorem claim_C5 (now : Time) (j : Job) (pid : PromptID)
    (hjh : j.status.job_history = none)
    (hpid : promptOf j = some pid)
    (hnd : j.status.IsDone = false)
    (hfut : j.future = FutureState.pending) :
    pollHistoryUpdateJobHistory now [] QueueStatus.not_in_queue j
      = { j with
          future := FutureState.rejected (CatErr.jobVanished j.job_id (some pid)),
          errors := j.errors ++ [CatErr.jobVanished j.job_id (some pid)],
          status := { j.status with
            errored := some now,
            errors := j.status.errors
              ++ [ErrEntry.fromExc (CatErr.jobVanished j.job_id (some pid))] } } := by
  have hd2 : ¬ (j.status.job_history.isSome = true) := by
    rw [hjh]
    simp
  unfold pollHistoryUpdateJobHistory
  rw [if_neg hd2]
  simp only [hpid]
  have hrecv : receivedJobHistory now [] QueueStatus.not_in_queue j
      = (j, some (CatErr.jobVanished j.job_id (some pid))) := by
    simp [receivedJobHistory, hpid]
  rw [hrecv]
  show jobContextExit now (CatErr.jobVanished j.job_id (some pid)) j = _
  rw [jobContextExit_eq, if_pos hnd, hfut]
  rfl

/-- Witness for claim_C5 at the fresh post-submission job. -/
theorem claim_C5_witness :
    pollHistoryUpdateJobHistory 3 [] QueueStatus.not_in_queue submitJob0
      = { submitJob0 with
          future := FutureState.rejected (CatErr.jobVanished submitJob0.job_id (some "p1")),
          errors := submitJob0.errors ++ [CatErr.jobVanished submitJob0.job_id (some "p1")],
          status := { submitJob0.status with
            errored := some 3,
            errors := submitJob0.status.errors
              ++ [ErrEntry.fromExc (CatErr.jobVanished submitJob0.job_id (some "p1"))] } } :=
  claim_C5 3 submitJob0 "p1" rfl rfl (by decide) rfl

/-- C2 counterexample: submitting a workflow whose ticket carries both a prompt
id and a non-null error field raises WorkflowSubmissionError, yet the prompt id
IS added to the prompt index (the indexing at catapult.py line 280 precedes the
error check), refuting the no-indexing part of the claim. -/
theorem claim_C2_counterexample :
    (catapultInternal 0 "job-1" wf0 ["9"] slugAll badTicket0 emptyState).2
      = Except.error (CatErr.workflowSubmission wf0 badTicket0)
    ∧ alookup "p1"
        (catapultInternal 0 "job-1" wf0 ["9"] slugAll badTicket0 emptyState).1.prompt_id_index
      = some "job-1" := by
  exact ⟨rfl, by decide⟩

/-- C2 (amended): for every submission whose ticket has a non-null error field,
a non-empty node-errors map, or no prompt id, the call raises
WorkflowSubmissionError carrying the prepared workflow and the raw ticket, the
job's result future is rejected with that same error and the errored timestamp
is set; the prompt id, when present, is nevertheless indexed before the error
check (and nothing is indexed only when the ticket has no prompt id). -/
theorem claim_C2_amended (now : Time) (jid : JobID) (wf : Workflow)
    (important : List NodeID) (isSlug : JobID → Bool) (ticket : APIWorkflowTicket)
    (s : CatState) (hnew : alookup jid s.jobs = none) (hslug : isSlug jid = true)
    (herr : hasSubmissionErrors ticket = true) :
    (catapultInternal now jid wf important isSlug ticket s).2
      = Except.error (CatErr.workflowSubmission wf ticket)
    ∧ (alookup jid (catapultInternal now jid wf important isSlug ticket s).1.jobs).map
        (fun j => j.future)
      = some (FutureState.rejected (CatErr.workflowSubmission wf ticket))
    ∧ (alookup jid (catapultInternal now jid wf important isSlug ticket s).1.jobs).map
        (fun j => j.status.errored) = some (some now)
    ∧ (∀ pid, ticket.prompt_id = some pid →
        alookup pid (catapultInternal now jid wf important isSlug ticket s).1.prompt_id_index
          = some jid)
    ∧ (ticket.prompt_id = none →
        (catapultInternal now jid wf important isSlug ticket s).1.prompt_id_index
          = s.prompt_id_index) := by
  have hns : (alookup jid s.jobs).isSome = false := by
    rw [hnew]
    rfl
  have hsl : ¬ (isSlug jid = false) := by
    rw [hslug]
    simp
  rcases htp : ticket.prompt_id with _ | pid
  · refine ⟨?_, ?_, ?_, ?_, ?_⟩ <;>
      simp [catapultInternal, hns, hsl, herr, htp, alookup_dinsert_self,
        jobContextExit, FutureState.doneB, JobStatus.IsDone, newJobStatus]
  · refine ⟨?_, ?_, ?_, ?_, ?_⟩ <;>
      simp [catapultInternal, hns, hsl, herr, htp, alookup_dinsert_self,
        jobContextExit, FutureState.doneB, JobStatus.IsDone, newJobStatus]

/-- Witness for claim_C2_amended at the concrete bad ticket. -/
theorem claim_C2_amended_witness :
    (catapultInternal 0 "job-1" wf0 ["9"] slugAll badTicket0 emptyState).2
      = Except.error (CatErr.workflowSubmission wf0 badTicket0)
    ∧ (alookup "job-1" (catapultInternal 0 "job-1" wf0 ["9"] slugAll badTicket0 emptyState).1.jobs).map
        (fun j => j.future)
      = some (FutureState.rejected (CatErr.workflowSubmission wf0 badTicket0))
    ∧ (alookup "job-1" (catapultInternal 0 "job-1" wf0 ["9"] slugAll badTicket0 emptyState).1.jobs).map
        (fun j => j.status.errored) = some (some 0)
    ∧ (∀ pid, badTicket0.prompt_id = some pid →
        alookup pid (catapultInternal 0 "job-1" wf0 ["9"] slugAll badTicket0 emptyState).1.prompt_id_index
          = some "job-1")
    ∧ (badTicket0.prompt_id = none →
        (catapultInternal 0 "job-1" wf0 ["9"] slugAll badTicket0 emptyState).1.prompt_id_index
          = emptyState.prompt_id_index) :=
  claim_C2_amended 0 "job-1" wf0 ["9"] slugAll badTicket0 emptyState rfl rfl rfl

/-- C9: facade-input errors are surfaced synchronously and leave the job table
unchanged: a duplicate job id fails the submission with the duplicate-id error
(the builtin KeyError at catapult.py line 237) before any record is created, a
non-slug job id fails with the invalid-id error (the ValueError at line 239),
and GetStatus, GetExceptions and CancelJob on an unknown job id fail with
JobNotFound without mutating the state. -/
theorem claim_C9 :
    (∀ (now : Time) (jid : JobID) (wf : Workflow) (important : List NodeID)
        (isSlug : JobID → Bool) (ticket : APIWorkflowTicket) (s : CatState),
      (alookup jid s.jobs).isSome = true →
      catapultInternal now jid wf important isSlug ticket s
        = (s, Except.error (CatErr.duplicateJobID jid)))
    ∧ (∀ (now : Time) (jid : JobID) (wf : Workflow) (important : List NodeID)
        (isSlug : JobID → Bool) (ticket : APIWorkflowTicket) (s : CatState),
      (alookup jid s.jobs).isSome = false → isSlug jid = false →
      catapultInternal now jid wf important isSlug ticket s
        = (s, Except.error (CatErr.invalidJobID jid)))
    ∧ (∀ (now : Time) (jid : JobID) (s : CatState), alookup jid s.jobs = none →
      getStatus jid s = Except.error (CatErr.jobNotFound jid)
      ∧ getExceptions jid s = Except.error (CatErr.jobNotFound jid)
      ∧ cancelJob now jid s = (s, some (CatErr.jobNotFound jid))) := by
  refine ⟨?_, ?_, ?_⟩
  · intro now jid wf important isSlug ticket s h
    simp [catapultInternal, h]
  · intro now jid wf important isSlug ticket s h1 h2
    simp [catapultInternal, h1, h2]
  · intro now jid s h
    refine ⟨?_, ?_, ?_⟩ <;> simp [getStatus, getExceptions, cancelJob, h]

/-- Witness for claim_C9 at concrete duplicate, invalid and missing job ids. -/
theorem claim_C9_witness :
    catapultInternal 1 "job-1" wf0 ["9"] slugAll ticket0 submitState0
      = (submitState0, Except.error (CatErr.duplicateJobID "job-1"))
    ∧ catapultInternal 1 "bad id" wf0 [] (fun _ => false) ticket0 emptyState
      = (emptyState, Except.error (CatErr.invalidJobID "bad id"))
    ∧ getStatus "missing" emptyState = Except.error (CatErr.jobNotFound "missing")
    ∧ cancelJob 1 "missing" emptyState = (emptyState, some (CatErr.jobNotFound "missing")) :=
  ⟨claim_C9.1 1 "job-1" wf0 ["9"] slugAll ticket0 submitState0 (by decide),
   claim_C9.2.1 1 "bad id" wf0 [] (fun _ => false) ticket0 emptyState (by decide) rfl,
   (claim_C9.2.2 1 "missing" emptyState rfl).1,
   (claim_C9.2.2 1 "missing" emptyState rfl).2.2⟩

theorem buildJobStatuses_skip (p : PromptID) (st : QueueStatus)
    (ps1 ps2 : List (PromptID × QueueStatus)) (index : List (PromptID × JobID))
    (jids : List JobID) (h : alookup p index = none) :
    buildJobStatuses (ps1 ++ (p, st) :: ps2) index jids
      = buildJobStatuses (ps1 ++ ps2) index jids := by
  unfold buildJobStatuses
  rw [List.foldl_append, List.foldl_append, List.foldl_cons]
  simp [h]

/-- C8: a prompt id that is not present in the PromptIndex is ignored without
raising by the stream handlers (jobs untouched, no exception) and contributes
nothing to the queue probe's routing, so no job record's status is modified by
that signal. -/
theorem claim_C8 :
    (∀ (now : Time) (d : WSErrData) (s : CatState) (pid : PromptID),
      d.prompt_id = some pid → alookup pid s.prompt_id_index = none →
      (wsExecError now d s).1.jobs = s.jobs
      ∧ (wsExecError now d s).1.prompt_id_index = s.prompt_id_index
      ∧ (wsExecError now d s).2 = none)
    ∧ (∀ (now : Time) (pidOpt : Option PromptID) (nodeOpt : Option String)
        (s : CatState) (pid : PromptID),
      pidOpt = some pid → alookup pid s.prompt_id_index = none →
      (wsExecuting now pidOpt nodeOpt s).1.jobs = s.jobs
      ∧ (wsExecuting now pidOpt nodeOpt s).2 = none)
    ∧ (∀ (now : Time) (p : PromptID) (st : QueueStatus)
        (ps1 ps2 : List (PromptID × QueueStatus)) (jids : List JobID) (s : CatState),
      alookup p s.prompt_id_index = none →
      pollQueueState now (ps1 ++ (p, st) :: ps2) jids s
        = pollQueueState now (ps1 ++ ps2) jids s) := by
  refine ⟨?_, ?_, ?_⟩
  · intro now d s pid hp hidx
    refine ⟨?_, ?_, ?_⟩ <;> simp [wsExecError, hp, hidx]
  · intro now pidOpt nodeOpt s pid hp hidx
    refine ⟨?_, ?_⟩ <;> simp [wsExecuting, hp, hidx]
  · intro now p st ps1 ps2 jids s h
    unfold pollQueueState
    rw [buildJobStatuses_skip p st ps1 ps2 s.prompt_id_index jids h]

/-- Witness for claim_C8 at a concrete unknown prompt id. -/
theorem claim_C8_witness :
    (wsExecError 1 wsErrUnknown submitState0).1.jobs = submitState0.jobs
    ∧ (wsExecError 1 wsErrUnknown submitState0).2 = none
    ∧ (wsExecuting 1 (some "zz") none submitState0).1.jobs = submitState0.jobs
    ∧ pollQueueState 1 ([] ++ ("zz", QueueStatus.running) :: []) ["job-1"] submitState0
        = pollQueueState 1 ([] ++ []) ["job-1"] submitState0 :=
  ⟨(claim_C8.1 1 wsErrUnknown submitState0 "zz" rfl (by decide)).1,
   (claim_C8.1 1 wsErrUnknown submitState0 "zz" rfl (by decide)).2.2,
   (claim_C8.2.1 1 (some "zz") none submitState0 "zz" rfl (by decide)).1,
   claim_C8.2.2 1 "zz" QueueStatus.running [] [] ["job-1"] submitState0 (by decide)⟩

theorem mem_datalessImportant (important : List NodeID) (jh : APIHistoryEntry)
    (n : NodeID) :
    n ∈ datalessImportant important jh ↔
      (n ∈ outputsToExecute jh ∧ ¬ n ∈ outputsWithData jh ∧ n ∈ important) := by
  simp only [datalessImportant, badDatalessOutputs, List.mem_filter]
  simp
  tauto

/-- C4: for every non-empty history entry received for a not-yet-terminal job,
the disposition follows the two-stage check: a status block with completed set
to false ends the job Errored with JobFailed carrying that status block; else,
when some of the engine's outputs-to-execute lack output data and intersect the
important outputs, the job ends Errored with NodesNotExecuted naming exactly
the missing important node ids and their workflow titles; otherwise the job
ends Success with the entry stored as the snapshot and the future resolved
with it; the missing-important list is characterized by membership. -/
theorem claim_C4 (now : Time) (j : Job) (pid : PromptID) (entry : APIHistoryEntry)
    (hjh : j.status.job_history = none)
    (hpid : promptOf j = some pid)
    (hnd : j.status.IsDone = false)
    (hfut : j.future = FutureState.pending) :
    ∀ j2, j2 = pollHistoryUpdateJobHistory now [(pid, entry)] QueueStatus.not_in_queue j →
    (∀ n, n ∈ datalessImportant j.important_nodes entry ↔
        (n ∈ outputsToExecute entry ∧ ¬ n ∈ outputsWithData entry ∧ n ∈ j.important_nodes))
    ∧ (∀ st, entry.status = some st → st.completed = some false →
        j2.status.errored = some now
        ∧ j2.future = FutureState.rejected (CatErr.jobFailed st)
        ∧ j2.status.success = none ∧ j2.status.cancelled = none
        ∧ j2.status.job_history = some entry)
    ∧ (historyFailed entry = false → datalessImportant j.important_nodes entry ≠ [] →
        j2.status.errored = some now
        ∧ j2.future = FutureState.rejected (CatErr.nodesNotExecuted
            (datalessImportant j.important_nodes entry)
            (getTitles j.prepared_workflow (datalessImportant j.important_nodes entry)))
        ∧ j2.status.success = none ∧ j2.status.cancelled = none
        ∧ j2.status.job_history = some entry)
    ∧ (historyFailed entry = false → datalessImportant j.important_nodes entry = [] →
        j2.status.success = some now
        ∧ j2.future = FutureState.resolved entry
        ∧ j2.status.job_history = some entry
        ∧ j2.status.errored = none ∧ j2.status.cancelled = none) := by
  intro j2 hj2
  obtain ⟨hs0, he0, hc0⟩ := (isDone_false_iff j.status).mp hnd
  have hd2 : ¬ (j.status.job_history.isSome = true) := by
    rw [hjh]
    simp
  have hlook : alookup pid [(pid, entry)] = some entry := by
    simp [alookup]
  have hstep : pollHistoryUpdateJobHistory now [(pid, entry)] QueueStatus.not_in_queue j
      = (match receivedJobHistory now [(pid, entry)] QueueStatus.not_in_queue j with
         | (j1, none) => j1
         | (j1, some e) => jobContextExit now e j1) := by
    unfold pollHistoryUpdateJobHistory
    rw [if_neg hd2]
    simp only [hpid]
  have hnd1 : ({ j with status := { j.status with job_history := some entry } } : Job).status.IsDone = false := hnd
  have hfd1 : ({ j with status := { j.status with job_history := some entry } } : Job).future.doneB = false := by
    show j.future.doneB = false
    rw [hfut]
    rfl
  refine ⟨fun n => mem_datalessImportant j.important_nodes entry n, ?_, ?_, ?_⟩
  · intro st hst hcf
    have hrecv : receivedJobHistory now [(pid, entry)] QueueStatus.not_in_queue j
        = ({ j with status := { j.status with job_history := some entry } },
           some (CatErr.jobFailed st)) := by
      simp only [receivedJobHistory, hpid, hlook, List.isEmpty_cons, hst]
      rw [if_pos hcf]
      rfl
    have hj2e : j2 = jobContextExit now (CatErr.jobFailed st)
        { j with status := { j.status with job_history := some entry } } := by
      rw [hj2, hstep, hrecv]
    rw [hj2e, jobContextExit_eq, if_pos hnd1, if_pos hfd1]
    exact ⟨rfl, rfl, hs0, hc0, rfl⟩
  · intro hhf hdl
    have hdl1 : ¬ (datalessImportant
        ({ j with status := { j.status with job_history := some entry } } : Job).important_nodes entry = []) := hdl
    have houts : receivedJobHistoryOutputs now entry
        { j with status := { j.status with job_history := some entry } }
        = ({ j with status := { j.status with job_history := some entry } },
           some (CatErr.nodesNotExecuted
             (datalessImportant j.important_nodes entry)
             (getTitles j.prepared_workflow (datalessImportant j.important_nodes entry)))) := by
      simp only [receivedJobHistoryOutputs]
      rw [if_neg hdl1]
    have hrecv : receivedJobHistory now [(pid, entry)] QueueStatus.not_in_queue j
        = ({ j with status := { j.status with job_history := some entry } },
           some (CatErr.nodesNotExecuted
             (datalessImportant j.important_nodes entry)
             (getTitles j.prepared_workflow (datalessImportant j.important_nodes entry)))) := by
      rcases hst : entry.status with _ | st
      · simp only [receivedJobHistory, hpid, hlook, List.isEmpty_cons, hst]
        exact houts
      · have hcf : ¬ (st.completed = some false) := by
          intro hx
          simp only [historyFailed, hst, hx] at hhf
          simp at hhf
        simp only [receivedJobHistory, hpid, hlook, List.isEmpty_cons, hst]
        rw [if_neg hcf]
        exact houts
    have hj2e : j2 = jobContextExit now
        (CatErr.nodesNotExecuted
          (datalessImportant j.important_nodes entry)
          (getTitles j.prepared_workflow (datalessImportant j.important_nodes entry)))
        { j with status := { j.status with job_history := some entry } } := by
      rw [hj2, hstep, hrecv]
    rw [hj2e, jobContextExit_eq, if_pos hnd1, if_pos hfd1]
    exact ⟨rfl, rfl, hs0, hc0, rfl⟩
  · intro hhf hdl
    have hdl1 : datalessImportant
        ({ j with status := { j.status with job_history := some entry } } : Job).important_nodes entry = [] := hdl
    have hfut1 : ({ j with status := { j.status with job_history := some entry } } : Job).future
        = FutureState.pending := hfut
    have houts : receivedJobHistoryOutputs now entry
        { j with status := { j.status with job_history := some entry } }
        = ({ j with
             future := FutureState.resolved entry,
             status := { j.status with job_history := some entry, success := some now } },
           none) := by
      simp only [receivedJobHistoryOutputs]
      rw [if_pos hdl1, hfut1]
    have hrecv : receivedJobHistory now [(pid, entry)] QueueStatus.not_in_queue j
        = ({ j with
             future := FutureState.resolved entry,
             status := { j.status with job_history := some entry, success := some now } },
           none) := by
      rcases hst : entry.status with _ | st
      · simp only [receivedJobHistory, hpid, hlook, List.isEmpty_cons, hst]
        exact houts
      · have hcf : ¬ (st.completed = some false) := by
          intro hx
          simp only [historyFailed, hst, hx] at hhf
          simp at hhf
        simp only [receivedJobHistory, hpid, hlook, List.isEmpty_cons, hst]
        rw [if_neg hcf]
        exact houts
    have hj2e : j2 = { j with
        future := FutureState.resolved entry,
        status := { j.status with job_history := some entry, success := some now } } := by
      rw [hj2, hstep, hrecv]
    rw [hj2e]
    exact ⟨rfl, rfl, rfl, he0, hc0⟩

/-- Witness for claim_C4: the fresh job with the successful history entry for
its prompt resolves Success with the entry as snapshot. -/
theorem claim_C4_witness :
    (pollHistoryUpdateJobHistory 7 [("p1", goodEntry0)] QueueStatus.not_in_queue submitJob0).status.success = some 7
    ∧ (pollHistoryUpdateJobHistory 7 [("p1", goodEntry0)] QueueStatus.not_in_queue submitJob0).future
        = FutureState.resolved goodEntry0
    ∧ (pollHistoryUpdateJobHistory 7 [("p1", goodEntry0)] QueueStatus.not_in_queue submitJob0).status.job_history
        = some goodEntry0
    ∧ (pollHistoryUpdateJobHistory 7 [("p1", goodEntry0)] QueueStatus.not_in_queue submitJob0).status.errored = none
    ∧ (pollHistoryUpdateJobHistory 7 [("p1", goodEntry0)] QueueStatus.not_in_queue submitJob0).status.cancelled = none :=
  (claim_C4 7 submitJob0 "p1" goodEntry0 rfl rfl (by decide) rfl
    (pollHistoryUpdateJobHistory 7 [("p1", goodEntry0)] QueueStatus.not_in_queue submitJob0)
    rfl).2.2.2 rfl rfl

/-- C10: with use_future_api left at its default (false), Catapult does not
return while the submitted job's future is pending; once the job ends Success
(in any reachable evolution from a submission-invariant state) it returns the
engine's recorded history-entry dict, a rejected future makes the call raise
that same error, a cancelled future raises the cancellation error, a failed
submission raises its error directly, and no status-and-future tuple is ever
returned in this mode. -/
theorem claim_C10 (j0 j : Job) (h0 : Inv j0) (hr : Reachable j0 j)
    (internal : CatState × Except CatErr (JobStatus × FutureState)) :
    (∀ stfut, internal.2 = Except.ok stfut →
      CatapultCall false internal FutureState.pending = none)
    ∧ (∀ stfut, internal.2 = Except.ok stfut → j.status.success.isSome = true →
      ∃ h2, j.future = FutureState.resolved h2 ∧ j.status.job_history = some h2
        ∧ CatapultCall false internal j.future
            = some (Except.ok (CatapultReturn.history h2)))
    ∧ (∀ stfut e, internal.2 = Except.ok stfut → j.future = FutureState.rejected e →
      CatapultCall false internal j.future = some (Except.error e))
    ∧ (∀ stfut, internal.2 = Except.ok stfut → j.future = FutureState.cancelled →
      CatapultCall false internal j.future = some (Except.error CatErr.cancelledError))
    ∧ (∀ e, internal.2 = Except.error e →
      ∀ fut, CatapultCall false internal fut = some (Except.error e))
    ∧ (∀ fut r, CatapultCall false internal fut = some (Except.ok r) →
      ∃ h2, r = CatapultReturn.history h2) := by
  have hinv := inv_reachable j0 j h0 hr
  refine ⟨?_, ?_, ?_, ?_, ?_, ?_⟩
  · intro stfut hok
    simp [CatapultCall, hok, awaitFuture]
  · intro stfut hok hss
    have hrv := hinv.2.2.2 hss
    rcases hx : j.future.resolvedVal with _ | h2
    · rw [hx] at hrv
      simp at hrv
    · have hfu : j.future = FutureState.resolved h2 := by
        cases hf : j.future with
        | pending =>
          rw [hf] at hx
          simp [FutureState.resolvedVal] at hx
        | resolved r =>
          rw [hf] at hx
          simp [FutureState.resolvedVal] at hx
          rw [hx]
        | rejected e =>
          rw [hf] at hx
          simp [FutureState.resolvedVal] at hx
        | cancelled =>
          rw [hf] at hx
          simp [FutureState.resolvedVal] at hx
      have hjhist := (hinv.2.2.1 (by rw [hx]; rfl)).2
      rw [hx] at hjhist
      refine ⟨h2, hfu, hjhist.symm, ?_⟩
      rw [hfu]
      simp [CatapultCall, hok, awaitFuture]
  · intro stfut e hok hfu
    rw [hfu]
    simp [CatapultCall, hok, awaitFuture]
  · intro stfut hok hfu
    rw [hfu]
    simp [CatapultCall, hok, awaitFuture]
  · intro e herr fut
    simp [CatapultCall, herr]
  · intro fut r hres
    rcases hint : internal.2 with e | stfut
    · rw [CatapultCall] at hres
      rw [hint] at hres
      simp at hres
    · cases hfut2 : fut with
      | pending =>
        rw [CatapultCall] at hres
        rw [hint, hfut2] at hres
        simp [awaitFuture] at hres
      | resolved h2 =>
        refine ⟨h2, ?_⟩
        rw [CatapultCall] at hres
        rw [hint, hfut2] at hres
        simp [awaitFuture] at hres
        exact hres.symm
      | rejected e =>
        rw [CatapultCall] at hres
        rw [hint, hfut2] at hres
        simp [awaitFuture] at hres
      | cancelled =>
        rw [CatapultCall] at hres
        rw [hint, hfut2] at hres
        simp [awaitFuture] at hres

/-- Witness for claim_C10 at the post-submission job resolved as success by
the history probe, with the concrete successful submission result. -/
theorem claim_C10_witness :
    (∀ stfut, internal0.2 = Except.ok stfut →
      CatapultCall false internal0 FutureState.pending = none)
    ∧ (∀ stfut, internal0.2 = Except.ok stfut →
      succJob0.status.success.isSome = true →
      ∃ h2, succJob0.future = FutureState.resolved h2
        ∧ succJob0.status.job_history = some h2
        ∧ CatapultCall false internal0 succJob0.future
            = some (Except.ok (CatapultReturn.history h2))) :=
  ⟨(claim_C10 submitJob0 succJob0 (by decide)
      ⟨[JEvent.pollHistory 2 [("p1", goodEntry0)]], rfl⟩ internal0).1,
   (claim_C10 submitJob0 succJob0 (by decide)
      ⟨[JEvent.pollHistory 2 [("p1", goodEntry0)]], rfl⟩ internal0).2.1⟩

end ComfyCatapult
